import Mathlib

/-!
Shallow embedding of the LittleLemon restaurant backend
(`restaurant/views.py`, `restaurant/serializers.py`) and of the parts of
its data model that the Django framework supplies.

Conventions of the embedding:
* The database is explicit state: a list of rows plus the next
  auto-increment primary key, threaded through every operation.
* Each HTTP handler becomes a function from (authentication flag, state,
  input) to an `Except ApiError` result; mutating handlers also return the
  new state, which equals the old state whenever they fail.
* The authentication flag models DRF's request authentication outcome:
  `true` when the request carries a valid token/session, `false` for an
  anonymous request.  `BookingViewSet` and `UserViewSet` declare
  `permission_classes = [permissions.IsAuthenticated]` and therefore gate
  on it; `MenuItemView` and `SingleMenuItemView` declare no permission
  classes, so the flag is ignored there (the repository's own tests
  exercise the menu endpoints anonymously and expect 200/201/204).
* Decimal prices are modelled as integers in cents; timestamps as already
  parsed integer values.  Neither choice affects any property proved here.
-/

namespace LittleLemon

/-- Error outcomes of the REST layer, per the error taxonomy of the
handlers: DRF permission failure, missing object, serializer failure on a
named field. -/
inductive ApiError where
  | unauthorized
  | notFound
  | validationError (field : String)
deriving Repr, DecidableEq

/-- HTTP status code carried by each error outcome. -/
def httpStatus : ApiError → Nat
  | .unauthorized => 401
  | .notFound => 404
  | .validationError _ => 400

/-- True exactly on a 401 Unauthorized outcome. -/
def exceptIsUnauthorized {α : Type} : Except ApiError α → Bool
  | .error .unauthorized => true
  | _ => false

/-! ## MenuItem -/

/-- A persisted MenuItem row: auto primary key plus the model fields
`title`, `price` (decimal, in cents), `inventory`. -/
structure MenuItemRow where
  id : Nat
  title : String
  price : Int
  inventory : Int
deriving Repr, DecidableEq

/-- The wire representation produced by `MenuItemSerializer`, whose
`Meta.fields` is exactly `['title', 'price', 'inventory']` (no id). -/
structure MenuItemOut where
  title : String
  price : Int
  inventory : Int
deriving Repr, DecidableEq

/-- Serializer rendering of a row: the three declared fields. -/
def renderMenuItem (r : MenuItemRow) : MenuItemOut :=
  ⟨r.title, r.price, r.inventory⟩

/-- An incoming request body for the menu endpoints; each field may be
absent. -/
structure MenuItemPayload where
  title : Option String
  price : Option Int
  inventory : Option Int
deriving Repr, DecidableEq

/-- MenuItem table state: rows in insertion order plus next primary key. -/
structure MenuDB where
  rows : List MenuItemRow
  nextId : Nat
deriving Repr, DecidableEq

/-- The empty MenuItem table. -/
def emptyMenuDB : MenuDB := ⟨[], 1⟩

/-- A present title is invalid when empty (CharField rejects blank). -/
def badTitle : Option String → Bool
  | some t => t == ""
  | none => false

/-- Modelled from the spec: the model field declarations (models.py) are
not among the sources, so the price constraint follows the spec sentence
"price parses as a non-negative decimal": a present price is invalid when
negative. -/
def badPrice : Option Int → Bool
  | some pr => pr < 0
  | none => false

/-- Modelled from the spec: the model field declarations (models.py) are
not among the sources, so the inventory constraint follows the spec
sentence "inventory parses as a non-negative integer": a present
inventory is invalid when negative. -/
def badInventory : Option Int → Bool
  | some v => v < 0
  | none => false

/-- Serializer validation for the menu payload, reporting the first bad
field.  With `required = true` (create and full update) every field must
be present; with `required = false` (partial update) absent fields are
skipped, present fields are validated as usual. -/
def validateMenuPayload (required : Bool) (p : MenuItemPayload) :
    Option ApiError :=
  if (required && p.title.isNone) || badTitle p.title then
    some (.validationError "title")
  else if (required && p.price.isNone) || badPrice p.price then
    some (.validationError "price")
  else if (required && p.inventory.isNone) || badInventory p.inventory then
    some (.validationError "inventory")
  else
    none

/-- The row persisted for a payload that passed full validation, under
primary key `i`. -/
def menuRowOfPayload (i : Nat) (p : MenuItemPayload) : MenuItemRow :=
  ⟨i, p.title.getD "", p.price.getD 0, p.inventory.getD 0⟩

/-- Primary-key lookup in the MenuItem table. -/
def findMenuItem (db : MenuDB) (i : Nat) : Option MenuItemRow :=
  db.rows.find? (fun r => r.id == i)

/-- GET /restaurant/menu/ (`MenuItemView`, list).  No permission classes:
the authentication flag is never consulted.  Returns every row in
insertion order through the serializer. -/
def menuList (_auth : Bool) (db : MenuDB) :
    Except ApiError (Nat × List MenuItemOut) :=
  .ok (200, db.rows.map renderMenuItem)

/-- POST /restaurant/menu/ (`MenuItemView`, create).  No permission
classes.  Validates, appends a fresh row, returns 201 with the created
representation; on serializer failure returns 400 and leaves the table
unchanged. -/
def menuCreate (_auth : Bool) (db : MenuDB) (p : MenuItemPayload) :
    Except ApiError (Nat × MenuItemOut) × MenuDB :=
  match validateMenuPayload true p with
  | some e => (.error e, db)
  | none =>
    let row := menuRowOfPayload db.nextId p
    (.ok (201, renderMenuItem row), ⟨db.rows ++ [row], db.nextId + 1⟩)

/-- GET /restaurant/menu/{id}/ (`SingleMenuItemView`, retrieve).  No
permission classes.  404 when the id has no row. -/
def menuRetrieve (_auth : Bool) (db : MenuDB) (i : Nat) :
    Except ApiError (Nat × MenuItemOut) :=
  match findMenuItem db i with
  | none => .error .notFound
  | some r => .ok (200, renderMenuItem r)

/-- Result of overwriting an existing row with the fields present in a
payload (absent fields keep the stored value; under full validation all
fields are present). -/
def applyMenuPayload (r : MenuItemRow) (p : MenuItemPayload) : MenuItemRow :=
  ⟨r.id, p.title.getD r.title, p.price.getD r.price,
    p.inventory.getD r.inventory⟩

/-- Shared body of PUT and PATCH on /restaurant/menu/{id}/: DRF first
resolves the object (404 when absent), then runs serializer validation
(400), then saves the updated row in place and returns 200 with its
representation. -/
def menuUpdateWith (required : Bool) (db : MenuDB) (i : Nat)
    (p : MenuItemPayload) : Except ApiError (Nat × MenuItemOut) × MenuDB :=
  match findMenuItem db i with
  | none => (.error .notFound, db)
  | some r =>
    match validateMenuPayload required p with
    | some e => (.error e, db)
    | none =>
      let r2 := applyMenuPayload r p
      (.ok (200, renderMenuItem r2),
        ⟨db.rows.map (fun s => if s.id == i then applyMenuPayload s p else s),
          db.nextId⟩)

/-- PUT /restaurant/menu/{id}/ (`SingleMenuItemView`, update): full
replacement, every serializer field required. -/
def menuUpdate (_auth : Bool) (db : MenuDB) (i : Nat) (p : MenuItemPayload) :
    Except ApiError (Nat × MenuItemOut) × MenuDB :=
  menuUpdateWith true db i p

/-- PATCH /restaurant/menu/{id}/ (`SingleMenuItemView`, partial update):
only the fields present in the payload are validated and overwritten. -/
def menuPartialUpdate (_auth : Bool) (db : MenuDB) (i : Nat)
    (p : MenuItemPayload) : Except ApiError (Nat × MenuItemOut) × MenuDB :=
  menuUpdateWith false db i p

/-- DELETE /restaurant/menu/{id}/ (`SingleMenuItemView`, destroy): 404
when absent, otherwise removes the row and returns 204. -/
def menuDelete (_auth : Bool) (db : MenuDB) (i : Nat) :
    Except ApiError Nat × MenuDB :=
  match findMenuItem db i with
  | none => (.error .notFound, db)
  | some _ =>
    (.ok 204, ⟨db.rows.filter (fun r => r.id != i), db.nextId⟩)

/-! ## Booking -/

/-- A persisted Booking row.  Modelled from the spec for the field types
(models.py is not among the sources): `name` text, `no_of_guests`
integer, optional `booking_date` timestamp (here already parsed to an
integer). -/
structure BookingRow where
  id : Nat
  name : String
  guests : Int
  bookingDate : Option Int
deriving Repr, DecidableEq

/-- The wire representation produced by `BookingSerializer`, whose
`Meta.fields` is `'__all__'`: every model field, the primary key
included. -/
structure BookingOut where
  id : Nat
  name : String
  guests : Int
  bookingDate : Option Int
deriving Repr, DecidableEq

/-- Serializer rendering of a booking row. -/
def renderBooking (r : BookingRow) : BookingOut :=
  ⟨r.id, r.name, r.guests, r.bookingDate⟩

/-- An incoming request body for the booking endpoints. -/
structure BookingPayload where
  name : Option String
  guests : Option Int
  bookingDate : Option Int
deriving Repr, DecidableEq

/-- Booking table state. -/
structure BookingDB where
  rows : List BookingRow
  nextId : Nat
deriving Repr, DecidableEq

/-- The empty Booking table. -/
def emptyBookingDB : BookingDB := ⟨[], 1⟩

/-- Modelled from the spec: the Booking model declarations (models.py)
are not among the sources, so validation follows the spec sentences
"name non-empty, no_of_guests a positive integer, booking_date (if
present) a valid ISO-8601 timestamp" (timestamps arrive already parsed
here, so a present date needs no further check). -/
def validateBookingPayload (required : Bool) (p : BookingPayload) :
    Option ApiError :=
  if (required && p.name.isNone) || (p.name.getD "x") == "" then
    some (.validationError "name")
  else if (required && p.guests.isNone) || (p.guests.getD 1) ≤ 0 then
    some (.validationError "no_of_guests")
  else
    none

/-- Primary-key lookup in the Booking table. -/
def findBooking (db : BookingDB) (i : Nat) : Option BookingRow :=
  db.rows.find? (fun r => r.id == i)

/-- GET /restaurant/booking/tables/ (`BookingViewSet.list`).
`permission_classes = [IsAuthenticated]`: an anonymous request is
rejected with 401 before any table access. -/
def bookingList (auth : Bool) (db : BookingDB) :
    Except ApiError (Nat × List BookingOut) :=
  if auth then .ok (200, db.rows.map renderBooking)
  else .error .unauthorized

/-- POST /restaurant/booking/tables/ (`BookingViewSet.create`): permission
gate, then validation, then append a fresh row and return 201. -/
def bookingCreate (auth : Bool) (db : BookingDB) (p : BookingPayload) :
    Except ApiError (Nat × BookingOut) × BookingDB :=
  if auth then
    match validateBookingPayload true p with
    | some e => (.error e, db)
    | none =>
      let row : BookingRow :=
        ⟨db.nextId, p.name.getD "", p.guests.getD 0, p.bookingDate⟩
      (.ok (201, renderBooking row), ⟨db.rows ++ [row], db.nextId + 1⟩)
  else (.error .unauthorized, db)

/-- GET /restaurant/booking/tables/{id}/ (`BookingViewSet.retrieve`). -/
def bookingRetrieve (auth : Bool) (db : BookingDB) (i : Nat) :
    Except ApiError (Nat × BookingOut) :=
  if auth then
    match findBooking db i with
    | none => .error .notFound
    | some r => .ok (200, renderBooking r)
  else .error .unauthorized

/-- Result of overwriting an existing booking row with the present
payload fields. -/
def applyBookingPayload (r : BookingRow) (p : BookingPayload) : BookingRow :=
  ⟨r.id, p.name.getD r.name, p.guests.getD r.guests,
    match p.bookingDate with
    | some d => some d
    | none => r.bookingDate⟩

/-- Shared body of PUT and PATCH on a booking: permission gate, object
resolution (404), validation (400), in-place save, 200. -/
def bookingUpdateWith (required : Bool) (auth : Bool) (db : BookingDB)
    (i : Nat) (p : BookingPayload) :
    Except ApiError (Nat × BookingOut) × BookingDB :=
  if auth then
    match findBooking db i with
    | none => (.error .notFound, db)
    | some r =>
      match validateBookingPayload required p with
      | some e => (.error e, db)
      | none =>
        (.ok (200, renderBooking (applyBookingPayload r p)),
          ⟨db.rows.map
              (fun s => if s.id == i then applyBookingPayload s p else s),
            db.nextId⟩)
  else (.error .unauthorized, db)

/-- PUT /restaurant/booking/tables/{id}/ (`BookingViewSet.update`). -/
def bookingUpdate (auth : Bool) (db : BookingDB) (i : Nat)
    (p : BookingPayload) : Except ApiError (Nat × BookingOut) × BookingDB :=
  bookingUpdateWith true auth db i p

/-- PATCH /restaurant/booking/tables/{id}/
(`BookingViewSet.partial_update`). -/
def bookingPartialUpdate (auth : Bool) (db : BookingDB) (i : Nat)
    (p : BookingPayload) : Except ApiError (Nat × BookingOut) × BookingDB :=
  bookingUpdateWith false auth db i p

/-- DELETE /restaurant/booking/tables/{id}/ (`BookingViewSet.destroy`). -/
def bookingDelete (auth : Bool) (db : BookingDB) (i : Nat) :
    Except ApiError Nat × BookingDB :=
  if auth then
    match findBooking db i with
    | none => (.error .notFound, db)
    | some _ =>
      (.ok 204, ⟨db.rows.filter (fun r => r.id != i), db.nextId⟩)
  else (.error .unauthorized, db)

/-! ## User -/

/-- A persisted User row of the framework account table.  Modelled from
the spec for the field set (the account model lives in the framework, not
in the sources): unique username, email, group memberships, and a stored
password credential. -/
structure UserRow where
  id : Nat
  username : String
  email : String
  groups : List String
  password : String
deriving Repr, DecidableEq

/-- The wire representation produced by `UserSerializer`, whose
`Meta.fields` is exactly `['url', 'username', 'email', 'groups']`.  The
stored password does not appear among the declared fields. -/
structure UserOut where
  url : String
  username : String
  email : String
  groups : List String
deriving Repr, DecidableEq

/-- Hyperlinked identity field of the serializer. -/
def userUrl (i : Nat) : String :=
  "/users/" ++ toString i ++ "/"

/-- Serializer rendering of a user row: only the four declared fields. -/
def renderUser (u : UserRow) : UserOut :=
  ⟨userUrl u.id, u.username, u.email, u.groups⟩

/-- An incoming request body for the user endpoints.  A `password` key
may be present in the body, but `password` is not among the serializer's
declared fields, so deserialization drops it. -/
structure UserPayload where
  username : Option String
  email : Option String
  groups : Option (List String)
  password : Option String
deriving Repr, DecidableEq

/-- User table state. -/
structure UserDB where
  rows : List UserRow
  nextId : Nat
deriving Repr, DecidableEq

/-- The empty User table. -/
def emptyUserDB : UserDB := ⟨[], 1⟩

/-- Whether some row other than id `i` already holds `username` (the
uniqueness check run by the serializer; on create no row is excluded). -/
def usernameTakenExcept (db : UserDB) (i : Option Nat) (u : String) : Bool :=
  db.rows.any (fun r => r.username == u && i != some r.id)

/-- Modelled from the spec: the account model is framework code outside
the sources, so validation follows the spec sentences "unique username"
and "`create` fails with a duplicate validation error when username
already exists": a required, non-empty username that no other row holds.
`exempt` is the primary key of the row being updated, if any. -/
def validateUserPayload (required : Bool) (db : UserDB) (exempt : Option Nat)
    (p : UserPayload) : Option ApiError :=
  if (required && p.username.isNone) || (p.username.getD "x") == "" then
    some (.validationError "username")
  else
    match p.username with
    | some u =>
      if usernameTakenExcept db exempt u then
        some (.validationError "username")
      else none
    | none => none

/-- Primary-key lookup in the User table. -/
def findUser (db : UserDB) (i : Nat) : Option UserRow :=
  db.rows.find? (fun r => r.id == i)

/-- GET on the user collection (`UserViewSet.list`), gated by
`IsAuthenticated`. -/
def userList (auth : Bool) (db : UserDB) :
    Except ApiError (Nat × List UserOut) :=
  if auth then .ok (200, db.rows.map renderUser)
  else .error .unauthorized

/-- POST on the user collection (`UserViewSet.create`): permission gate,
serializer validation, then a fresh row.  Because `password` is not a
serializer field, the deserialized data holds no password and the stored
credential of the new row is the model default (empty, unusable). -/
def userCreate (auth : Bool) (db : UserDB) (p : UserPayload) :
    Except ApiError (Nat × UserOut) × UserDB :=
  if auth then
    match validateUserPayload true db none p with
    | some e => (.error e, db)
    | none =>
      let row : UserRow :=
        ⟨db.nextId, p.username.getD "", p.email.getD "", p.groups.getD [], ""⟩
      (.ok (201, renderUser row), ⟨db.rows ++ [row], db.nextId + 1⟩)
  else (.error .unauthorized, db)

/-- GET on a single user (`UserViewSet.retrieve`). -/
def userRetrieve (auth : Bool) (db : UserDB) (i : Nat) :
    Except ApiError (Nat × UserOut) :=
  if auth then
    match findUser db i with
    | none => .error .notFound
    | some r => .ok (200, renderUser r)
  else .error .unauthorized

/-- Result of overwriting an existing user row with the present payload
fields.  The payload's `password`, not being a serializer field, is
ignored: the stored credential is kept as is. -/
def applyUserPayload (r : UserRow) (p : UserPayload) : UserRow :=
  ⟨r.id, p.username.getD r.username, p.email.getD r.email,
    p.groups.getD r.groups, r.password⟩

/-- Shared body of PUT and PATCH on a user: permission gate, object
resolution, validation (uniqueness excludes the row itself), in-place
save. -/
def userUpdateWith (required : Bool) (auth : Bool) (db : UserDB) (i : Nat)
    (p : UserPayload) : Except ApiError (Nat × UserOut) × UserDB :=
  if auth then
    match findUser db i with
    | none => (.error .notFound, db)
    | some r =>
      match validateUserPayload required db (some r.id) p with
      | some e => (.error e, db)
      | none =>
        (.ok (200, renderUser (applyUserPayload r p)),
          ⟨db.rows.map
              (fun s => if s.id == i then applyUserPayload s p else s),
            db.nextId⟩)
  else (.error .unauthorized, db)

/-- PUT on a single user (`UserViewSet.update`). -/
def userUpdate (auth : Bool) (db : UserDB) (i : Nat) (p : UserPayload) :
    Except ApiError (Nat × UserOut) × UserDB :=
  userUpdateWith true auth db i p

/-- PATCH on a single user (`UserViewSet.partial_update`). -/
def userPartialUpdate (auth : Bool) (db : UserDB) (i : Nat)
    (p : UserPayload) : Except ApiError (Nat × UserOut) × UserDB :=
  userUpdateWith false auth db i p

/-- DELETE on a single user (`UserViewSet.destroy`). -/
def userDelete (auth : Bool) (db : UserDB) (i : Nat) :
    Except ApiError Nat × UserDB :=
  if auth then
    match findUser db i with
    | none => (.error .notFound, db)
    | some _ =>
      (.ok 204, ⟨db.rows.filter (fun r => r.id != i), db.nextId⟩)
  else (.error .unauthorized, db)

/-- Replace the stored password credential of the row with primary key
`i` (a state perturbation used to express password non-interference). -/
def setUserPassword (db : UserDB) (i : Nat) (pw : String) : UserDB :=
  ⟨db.rows.map (fun r => if r.id == i then
      ⟨r.id, r.username, r.email, r.groups, pw⟩ else r),
    db.nextId⟩

/-! ## Helper lemmas -/

/-- A prefix on which the predicate is everywhere false does not affect a
`find?`. -/
theorem find?_append_left_none {α : Type} (q : α → Bool) (l l2 : List α)
    (h : ∀ x ∈ l, q x = false) : (l ++ l2).find? q = l2.find? q := by
  induction l with
  | nil => rfl
  | cons a l ih =>
    have ha : ¬ q a = true := by
      simp [h a (List.mem_cons_self a l)]
    rw [List.cons_append, List.find?_cons_of_neg _ ha]
    exact ih (fun x hx => h x (List.mem_cons_of_mem a hx))

/-- `find?` commutes with mapping a function that does not change the
predicate. -/
theorem find?_map_pres {α : Type} (f : α → α) (q : α → Bool)
    (hf : ∀ x, q (f x) = q x) (l : List α) :
    (l.map f).find? q = (l.find? q).map f := by
  induction l with
  | nil => rfl
  | cons a l ih =>
    by_cases h : q a = true
    · have : q (f a) = true := by rw [hf]; exact h
      rw [List.map_cons, List.find?_cons_of_pos _ this,
        List.find?_cons_of_pos _ h]
      rfl
    · have hfa : ¬ q (f a) = true := by rw [hf]; exact h
      rw [List.map_cons, List.find?_cons_of_neg _ hfa,
        List.find?_cons_of_neg _ h]
      exact ih

/-- Filtering away exactly the rows satisfying `q` makes a `find?` for
`q` fail. -/
theorem find?_filter_not {α : Type} (q : α → Bool) (l : List α) :
    (l.filter (fun x => !(q x))).find? q = none := by
  rw [List.find?_eq_none]
  intro x hx
  have hm := (List.mem_filter.mp hx).2
  simp only [Bool.not_eq_true'] at hm
  simp [hm]

/-! ## C1: unauthenticated booking operations -/

/-- C1.  Every Booking operation (list, create, retrieve, update, partial
update, delete) invoked without a valid authenticated session fails with
Unauthorized (whose HTTP status is 401) and leaves the persisted Booking
rows unchanged. -/
theorem booking_unauthenticated_rejected (db : BookingDB)
    (p : BookingPayload) (i : Nat) :
    bookingList false db = .error .unauthorized
    ∧ bookingCreate false db p = (.error .unauthorized, db)
    ∧ bookingRetrieve false db i = .error .unauthorized
    ∧ bookingUpdate false db i p = (.error .unauthorized, db)
    ∧ bookingPartialUpdate false db i p = (.error .unauthorized, db)
    ∧ bookingDelete false db i = (.error .unauthorized, db)
    ∧ httpStatus .unauthorized = 401 := by
  refine ⟨rfl, rfl, rfl, rfl, rfl, rfl, rfl⟩

/-! ## C2: menu creation and authentication (corrected) -/

/-- C2 counterexample.  An anonymous POST /restaurant/menu/ with a valid
payload is not rejected: it returns 201 and persists the item, so menu
item creation does not require a valid token. -/
theorem menu_create_anonymous_succeeds :
    (menuCreate false emptyMenuDB ⟨some "Salad", some 700, some 15⟩).1
      = .ok (201, ⟨"Salad", 700, 15⟩)
    ∧ (menuCreate false emptyMenuDB
        ⟨some "Salad", some 700, some 15⟩).2.rows
      = [⟨1, "Salad", 700, 15⟩] := by
  exact ⟨rfl, rfl⟩

/-- C2 amended.  `MenuItemView` declares no permission classes, so POST
/restaurant/menu/ behaves identically with and without a token, and an
anonymous create with a valid payload succeeds with 201 and persists the
new row. -/
theorem menu_create_ignores_auth (a : Bool) (db : MenuDB)
    (p : MenuItemPayload) :
    menuCreate a db p = menuCreate false db p
    ∧ (validateMenuPayload true p = none →
        (menuCreate false db p).1
            = .ok (201, renderMenuItem (menuRowOfPayload db.nextId p))
          ∧ (menuCreate false db p).2.rows
            = db.rows ++ [menuRowOfPayload db.nextId p]) := by
  refine ⟨rfl, fun h => ?_⟩
  simp [menuCreate, h]

/-- C2 amended, witness at a concrete anonymous request. -/
theorem menu_create_ignores_auth_witness :
    menuCreate true emptyMenuDB ⟨some "Pasta", some 1250, some 10⟩
        = menuCreate false emptyMenuDB ⟨some "Pasta", some 1250, some 10⟩
    ∧ ((menuCreate false emptyMenuDB
          ⟨some "Pasta", some 1250, some 10⟩).1
        = .ok (201, renderMenuItem (menuRowOfPayload emptyMenuDB.nextId
            ⟨some "Pasta", some 1250, some 10⟩))
      ∧ (menuCreate false emptyMenuDB
          ⟨some "Pasta", some 1250, some 10⟩).2.rows
        = emptyMenuDB.rows ++ [menuRowOfPayload emptyMenuDB.nextId
            ⟨some "Pasta", some 1250, some 10⟩]) :=
  ⟨(menu_create_ignores_auth true emptyMenuDB _).1,
    (menu_create_ignores_auth true emptyMenuDB _).2 (by decide)⟩

/-! ## C10: no menu endpoint checks authentication -/

/-- C10.  Neither `MenuItemView` nor `SingleMenuItemView` performs an
authentication check: every menu operation gives an anonymous caller
exactly the result it gives an authenticated one, and no menu operation
ever returns Unauthorized. -/
theorem menu_operations_never_unauthorized (a : Bool) (db : MenuDB)
    (i : Nat) (p : MenuItemPayload) :
    menuList a db = menuList true db
    ∧ menuCreate a db p = menuCreate true db p
    ∧ menuRetrieve a db i = menuRetrieve true db i
    ∧ menuUpdate a db i p = menuUpdate true db i p
    ∧ menuPartialUpdate a db i p = menuPartialUpdate true db i p
    ∧ menuDelete a db i = menuDelete true db i
    ∧ exceptIsUnauthorized (menuList a db) = false
    ∧ exceptIsUnauthorized (menuCreate a db p).1 = false
    ∧ exceptIsUnauthorized (menuRetrieve a db i) = false
    ∧ exceptIsUnauthorized (menuUpdate a db i p).1 = false
    ∧ exceptIsUnauthorized (menuPartialUpdate a db i p).1 = false
    ∧ exceptIsUnauthorized (menuDelete a db i).1 = false := by
  refine ⟨rfl, rfl, rfl, rfl, rfl, rfl, rfl, ?_, ?_, ?_, ?_, ?_⟩
  · unfold menuCreate
    rcases h : validateMenuPayload true p with _ | e
    · rfl
    · unfold validateMenuPayload at h
      split at h
      · cases h; rfl
      · split at h
        · cases h; rfl
        · split at h
          · cases h; rfl
          · cases h
  · unfold menuRetrieve
    rcases findMenuItem db i with _ | r <;> rfl
  · unfold menuUpdate menuUpdateWith
    rcases findMenuItem db i with _ | r
    · rfl
    · rcases h : validateMenuPayload true p with _ | e
      · rfl
      · unfold validateMenuPayload at h
        split at h
        · cases h; rfl
        · split at h
          · cases h; rfl
          · split at h
            · cases h; rfl
            · cases h
  · unfold menuPartialUpdate menuUpdateWith
    rcases findMenuItem db i with _ | r
    · rfl
    · rcases h : validateMenuPayload false p with _ | e
      · rfl
      · unfold validateMenuPayload at h
        split at h
        · cases h; rfl
        · split at h
          · cases h; rfl
          · split at h
            · cases h; rfl
            · cases h
  · unfold menuDelete
    rcases findMenuItem db i with _ | r <;> rfl

/-! ## C3: create/retrieve round trip -/

/-- C3.  Creating a MenuItem from a payload that passes validation and
then retrieving the created row by its primary key returns exactly the
payload's title, price and inventory.  The hypothesis that every stored
id is below the next auto-increment key holds for every table the
persistence layer builds. -/
theorem menu_create_retrieve_roundtrip (a b : Bool) (db : MenuDB)
    (p : MenuItemPayload) (hwf : ∀ r ∈ db.rows, r.id < db.nextId)
    (hv : validateMenuPayload true p = none) :
    menuRetrieve b (menuCreate a db p).2 db.nextId
      = .ok (200, ⟨p.title.getD "", p.price.getD 0, p.inventory.getD 0⟩) := by
  unfold menuCreate
  rw [hv]
  unfold menuRetrieve findMenuItem
  simp only
  rw [find?_append_left_none]
  · simp [menuRowOfPayload, renderMenuItem]
  · intro x hx
    have h := hwf x hx
    have hne : x.id ≠ db.nextId := Nat.ne_of_lt h
    simp [hne]

/-- C3 witness: a concrete create followed by a retrieve gives back the
created values. -/
theorem menu_create_retrieve_roundtrip_witness :
    menuRetrieve true
        (menuCreate true emptyMenuDB ⟨some "Tacos", some 950, some 12⟩).2
        emptyMenuDB.nextId
      = .ok (200, ⟨"Tacos", 950, 12⟩) :=
  menu_create_retrieve_roundtrip true true emptyMenuDB
    ⟨some "Tacos", some 950, some 12⟩ (by decide) (by decide)

/-! ## C4: delete semantics -/

/-- C4.  Deleting an existing MenuItem or Booking row returns the
no-content status 204 and makes a subsequent retrieve of the same id fail
with NotFound; deleting an id that has no row itself fails with NotFound
and changes nothing. -/
theorem menu_booking_delete_spec (a : Bool) (mdb : MenuDB)
    (bdb : BookingDB) (i j : Nat) :
    ((findMenuItem mdb i).isSome = true →
      (menuDelete a mdb i).1 = .ok 204
      ∧ menuRetrieve a (menuDelete a mdb i).2 i = .error .notFound)
    ∧ ((findMenuItem mdb i).isSome = false →
      menuDelete a mdb i = (.error .notFound, mdb))
    ∧ ((findBooking bdb j).isSome = true →
      (bookingDelete true bdb j).1 = .ok 204
      ∧ bookingRetrieve true (bookingDelete true bdb j).2 j
        = .error .notFound)
    ∧ ((findBooking bdb j).isSome = false →
      bookingDelete true bdb j = (.error .notFound, bdb)) := by
  refine ⟨?_, ?_, ?_, ?_⟩
  · intro h
    rcases hm : findMenuItem mdb i with _ | r
    · rw [hm] at h; cases h
    · constructor
      · simp [menuDelete, hm]
      · simp only [menuDelete, hm]
        unfold menuRetrieve findMenuItem
        simp only
        rw [show (fun (r : MenuItemRow) => r.id != i)
              = (fun r => !(r.id == i)) from rfl,
          find?_filter_not (fun r => r.id == i) mdb.rows]
  · intro h
    rcases hm : findMenuItem mdb i with _ | r
    · simp [menuDelete, hm]
    · rw [hm] at h; cases h
  · intro h
    rcases hb : findBooking bdb j with _ | r
    · rw [hb] at h; cases h
    · constructor
      · simp [bookingDelete, hb]
      · simp only [bookingDelete, hb, if_true]
        unfold bookingRetrieve findBooking
        simp only [if_true]
        rw [show (fun (r : BookingRow) => r.id != j)
              = (fun r => !(r.id == j)) from rfl,
          find?_filter_not (fun r => r.id == j) bdb.rows]
  · intro h
    rcases hb : findBooking bdb j with _ | r
    · simp [bookingDelete, hb]
    · rw [hb] at h; cases h

/-- Concrete one-row MenuItem table used by witnesses. -/
def wMenuDB : MenuDB := ⟨[⟨1, "Pizza", 1599, 5⟩], 2⟩

/-- Concrete one-row Booking table used by witnesses. -/
def wBookingDB : BookingDB := ⟨[⟨1, "John Doe", 2, none⟩], 2⟩

/-- C4 witness: deletion of the existing id 1 and of the absent id 7, on
both tables. -/
theorem menu_booking_delete_spec_witness :
    ((menuDelete true wMenuDB 1).1 = .ok 204
      ∧ menuRetrieve true (menuDelete true wMenuDB 1).2 1
        = .error .notFound)
    ∧ menuDelete true wMenuDB 7 = (.error .notFound, wMenuDB)
    ∧ ((bookingDelete true wBookingDB 1).1 = .ok 204
      ∧ bookingRetrieve true (bookingDelete true wBookingDB 1).2 1
        = .error .notFound)
    ∧ bookingDelete true wBookingDB 7 = (.error .notFound, wBookingDB) :=
  ⟨(menu_booking_delete_spec true wMenuDB wBookingDB 1 1).1 (by decide),
    (menu_booking_delete_spec true wMenuDB wBookingDB 7 7).2.1 (by decide),
    (menu_booking_delete_spec true wMenuDB wBookingDB 1 1).2.2.1 (by decide),
    (menu_booking_delete_spec true wMenuDB wBookingDB 7 7).2.2.2
      (by decide)⟩

/-! ## C5: inventory-only partial update is frame-preserving -/

/-- C5.  A PATCH whose payload holds only `inventory` succeeds with 200,
sets only that row's inventory (its title and price are kept), is
invisible at every other primary key, and does not change the number of
rows. -/
theorem menu_partial_update_inventory_frame (a : Bool) (db : MenuDB)
    (i : Nat) (v : Int) (r : MenuItemRow)
    (hr : findMenuItem db i = some r) (hv : 0 ≤ v) :
    (menuPartialUpdate a db i ⟨none, none, some v⟩).1
      = .ok (200, ⟨r.title, r.price, v⟩)
    ∧ findMenuItem (menuPartialUpdate a db i ⟨none, none, some v⟩).2 i
      = some ⟨r.id, r.title, r.price, v⟩
    ∧ (∀ j, j ≠ i →
        findMenuItem (menuPartialUpdate a db i ⟨none, none, some v⟩).2 j
          = findMenuItem db j)
    ∧ (menuPartialUpdate a db i ⟨none, none, some v⟩).2.rows.length
      = db.rows.length := by
  have hnv : ¬ v < 0 := not_lt.mpr hv
  have hval : validateMenuPayload false ⟨none, none, some v⟩ = none := by
    simp [validateMenuPayload, badTitle, badPrice, badInventory, hnv]
  have hr2 : db.rows.find? (fun s => s.id == i) = some r := hr
  have hpr : r.id = i := by
    have h0 := List.find?_some hr2
    simpa using h0
  have hfq : ∀ (j : Nat) (x : MenuItemRow),
      ((if x.id == i then applyMenuPayload x ⟨none, none, some v⟩ else x).id
          == j)
        = (x.id == j) := by
    intro j x
    by_cases hx : (x.id == i) = true
    · simp [hx, applyMenuPayload]
    · simp [hx]
  refine ⟨?_, ?_, ?_, ?_⟩
  · simp [menuPartialUpdate, menuUpdateWith, hr, hval, applyMenuPayload,
      renderMenuItem]
  · simp only [menuPartialUpdate, menuUpdateWith, hr, hval]
    unfold findMenuItem
    simp only
    rw [find?_map_pres _ _ (hfq i)]
    unfold findMenuItem at hr
    rw [hr]
    simp [hpr, applyMenuPayload]
  · intro j hj
    simp only [menuPartialUpdate, menuUpdateWith, hr, hval]
    unfold findMenuItem
    simp only
    rw [find?_map_pres _ _ (hfq j)]
    rcases hx : db.rows.find? (fun s => s.id == j) with _ | x
    · rw [hx]
      rfl
    · have hxj := List.find?_some hx
      have hxeq : x.id = j := by simpa using hxj
      rw [hx]
      simp [hxeq, hj]
  · simp [menuPartialUpdate, menuUpdateWith, hr, hval]

/-- C5 witness: patching only the inventory of the concrete row 1. -/
theorem menu_partial_update_inventory_frame_witness :
    (menuPartialUpdate true wMenuDB 1 ⟨none, none, some 3⟩).1
      = .ok (200, ⟨"Pizza", 1599, 3⟩)
    ∧ findMenuItem (menuPartialUpdate true wMenuDB 1 ⟨none, none, some 3⟩).2 1
      = some ⟨1, "Pizza", 1599, 3⟩
    ∧ findMenuItem (menuPartialUpdate true wMenuDB 1 ⟨none, none, some 3⟩).2 2
      = findMenuItem wMenuDB 2
    ∧ (menuPartialUpdate true wMenuDB 1 ⟨none, none, some 3⟩).2.rows.length
      = wMenuDB.rows.length :=
  have h := menu_partial_update_inventory_frame true wMenuDB 1 3
    ⟨1, "Pizza", 1599, 5⟩ (by decide) (by decide)
  ⟨h.1, h.2.1, h.2.2.1 2 (by decide), h.2.2.2⟩

/-! ## C6: listing reflects every created item in insertion order -/

/-- Sequentially POST a list of payloads to /restaurant/menu/. -/
def createAll (db : MenuDB) : List MenuItemPayload → MenuDB
  | [] => db
  | p :: ps => createAll (menuCreate true db p).2 ps

/-- The representation the serializer renders for the row persisted from
a fully validated payload. -/
def payloadOut (p : MenuItemPayload) : MenuItemOut :=
  ⟨p.title.getD "", p.price.getD 0, p.inventory.getD 0⟩

/-- Rows accumulated by a sequence of valid creates: the old rows
followed by one fresh row per payload, in request order. -/
theorem createAll_rows_map (ps : List MenuItemPayload)
    (h : ∀ p ∈ ps, validateMenuPayload true p = none) (db : MenuDB) :
    (createAll db ps).rows.map renderMenuItem
      = db.rows.map renderMenuItem ++ ps.map payloadOut := by
  induction ps generalizing db with
  | nil => simp [createAll]
  | cons p ps ih =>
    have hp := h p (List.mem_cons_self p ps)
    have hps : ∀ q ∈ ps, validateMenuPayload true q = none :=
      fun q hq => h q (List.mem_cons_of_mem p hq)
    simp only [createAll, menuCreate, hp]
    rw [ih hps]
    simp [menuRowOfPayload, renderMenuItem, payloadOut]

/-- C6.  GET /restaurant/menu/ ignores authentication and returns every
persisted row in insertion order through the serializer; in particular,
creating N valid payloads into the empty table and listing yields exactly
those N representations in creation order. -/
theorem menu_list_returns_all (a : Bool) (db : MenuDB)
    (ps : List MenuItemPayload) :
    menuList a db = .ok (200, db.rows.map renderMenuItem)
    ∧ menuList a db = menuList false db
    ∧ ((∀ p ∈ ps, validateMenuPayload true p = none) →
        menuList a (createAll emptyMenuDB ps)
          = .ok (200, ps.map payloadOut)
        ∧ (ps.map payloadOut).length = ps.length) := by
  refine ⟨rfl, rfl, fun h => ⟨?_, by simp⟩⟩
  unfold menuList
  rw [createAll_rows_map ps h emptyMenuDB]
  rfl

/-- C6 witness: three concrete creates into the empty table list back as
exactly those three items. -/
theorem menu_list_returns_all_witness :
    menuList true (createAll emptyMenuDB
        [⟨some "Spaghetti", some 1050, some 20⟩,
          ⟨some "Cheeseburger", some 899, some 15⟩,
          ⟨some "Caesar Salad", some 725, some 10⟩])
      = .ok (200, [⟨"Spaghetti", 1050, 20⟩, ⟨"Cheeseburger", 899, 15⟩,
          ⟨"Caesar Salad", 725, 10⟩])
    ∧ ([⟨some "Spaghetti", some 1050, some 20⟩,
          ⟨some "Cheeseburger", some 899, some 15⟩,
          ⟨some "Caesar Salad", some 725, some 10⟩].map
            (payloadOut)).length
      = ([⟨some "Spaghetti", some 1050, some 20⟩,
          ⟨some "Cheeseburger", some 899, some 15⟩,
          ⟨some "Caesar Salad", some 725, some 10⟩]
            : List MenuItemPayload).length :=
  (menu_list_returns_all true emptyMenuDB
    [⟨some "Spaghetti", some 1050, some 20⟩,
      ⟨some "Cheeseburger", some 899, some 15⟩,
      ⟨some "Caesar Salad", some 725, some 10⟩]).2.2 (by decide)

/-! ## C7: create succeeds exactly on valid payloads -/

/-- The spec's wording of a valid MenuItem payload: title present and
non-empty, price present and non-negative, inventory present and
non-negative. -/
def MenuPayloadValidSpec (p : MenuItemPayload) : Prop :=
  (∃ t, p.title = some t ∧ t ≠ "")
  ∧ (∃ pr, p.price = some pr ∧ 0 ≤ pr)
  ∧ (∃ n, p.inventory = some n ∧ 0 ≤ n)

/-- C7.  POST /restaurant/menu/ succeeds (201, persists exactly one new
row holding the payload values) precisely when the payload is valid in
the spec's sense; on any other payload it fails with a field
ValidationError and persists nothing. -/
theorem menu_create_valid_iff (a : Bool) (db : MenuDB)
    (p : MenuItemPayload) :
    ((∃ out, (menuCreate a db p).1 = .ok (201, out))
      ↔ MenuPayloadValidSpec p)
    ∧ (MenuPayloadValidSpec p →
        menuCreate a db p
          = (.ok (201, renderMenuItem (menuRowOfPayload db.nextId p)),
            ⟨db.rows ++ [menuRowOfPayload db.nextId p], db.nextId + 1⟩))
    ∧ (¬ MenuPayloadValidSpec p →
        (menuCreate a db p).2 = db
        ∧ ∃ f, (menuCreate a db p).1 = .error (.validationError f)) := by
  have hval : validateMenuPayload true p = none ↔ MenuPayloadValidSpec p := by
    unfold validateMenuPayload MenuPayloadValidSpec badTitle badPrice
      badInventory
    rcases p with ⟨ot, opr, onv⟩
    rcases ot with _ | t
    · simp
    · rcases opr with _ | pr
      · by_cases ht : t = "" <;> simp [ht]
      · rcases onv with _ | n
        · by_cases ht : t = "" <;> by_cases hpr : pr < 0 <;>
            simp [ht, hpr]
        · by_cases ht : t = "" <;> by_cases hpr : pr < 0 <;>
            by_cases hn : n < 0 <;> simp [ht, hpr, hn] <;> omega
  have herr : validateMenuPayload true p = none
      ∨ ∃ f, validateMenuPayload true p = some (.validationError f) := by
    unfold validateMenuPayload
    split
    · exact Or.inr ⟨"title", rfl⟩
    · split
      · exact Or.inr ⟨"price", rfl⟩
      · split
        · exact Or.inr ⟨"inventory", rfl⟩
        · exact Or.inl rfl
  refine ⟨⟨fun h => ?_, fun h => ?_⟩, fun h => ?_, fun h => ?_⟩
  · rcases h with ⟨out, hout⟩
    rcases herr with h0 | ⟨f, h0⟩
    · exact hval.mp h0
    · rw [show menuCreate a db p = ((menuCreate a db p).1,
          (menuCreate a db p).2) from rfl] at hout
      unfold menuCreate at hout
      rw [h0] at hout
      cases hout
  · have h0 := hval.mpr h
    exact ⟨renderMenuItem (menuRowOfPayload db.nextId p), by
      simp [menuCreate, h0]⟩
  · have h0 := hval.mpr h
    simp [menuCreate, h0]
  · have h0 : ¬ validateMenuPayload true p = none := fun hc => h (hval.mp hc)
    rcases herr with h1 | ⟨f, h1⟩
    · exact absurd h1 h0
    · constructor
      · simp [menuCreate, h1]
      · exact ⟨f, by simp [menuCreate, h1]⟩

/-- C7 witness: a concrete valid payload is created with 201 and a
concrete invalid one (negative price) is rejected with a field
ValidationError and no persistence change. -/
theorem menu_create_valid_iff_witness :
    menuCreate true emptyMenuDB ⟨some "Burger", some 899, some 20⟩
      = (.ok (201, renderMenuItem (menuRowOfPayload emptyMenuDB.nextId
          ⟨some "Burger", some 899, some 20⟩)),
        ⟨emptyMenuDB.rows ++ [menuRowOfPayload emptyMenuDB.nextId
          ⟨some "Burger", some 899, some 20⟩], emptyMenuDB.nextId + 1⟩)
    ∧ ((menuCreate true emptyMenuDB ⟨some "Burger", some (-1), some 20⟩).2
        = emptyMenuDB
      ∧ ∃ f, (menuCreate true emptyMenuDB
          ⟨some "Burger", some (-1), some 20⟩).1
        = .error (.validationError f)) :=
  ⟨(menu_create_valid_iff true emptyMenuDB
      ⟨some "Burger", some 899, some 20⟩).2.1
      ⟨⟨"Burger", rfl, by decide⟩, ⟨899, rfl, by decide⟩,
        ⟨20, rfl, by decide⟩⟩,
    (menu_create_valid_iff true emptyMenuDB
      ⟨some "Burger", some (-1), some 20⟩).2.2
      (fun hc => by
        rcases hc with ⟨_, ⟨pr, hpr, hge⟩, _⟩
        cases hpr
        exact absurd hge (by decide))⟩

/-! ## C9: user representations and the password (corrected) -/

/-- Concrete one-row User table used by witnesses: one account whose
stored credential is "hash1". -/
def wUserDB : UserDB := ⟨[⟨1, "alice", "alice@example.com", [], "hash1"⟩], 2⟩

/-- C9 counterexample.  The password is not accepted as write-only input:
creating a user whose request body carries password "secret" stores the
model default credential "" instead, and a PATCH carrying only a password
returns 200 yet leaves the table bit-for-bit unchanged ("hash1" stays). -/
theorem user_password_input_ignored :
    ((userCreate true emptyUserDB
        ⟨some "bob", some "bob@example.com", some [], some "secret"⟩).2.rows.map
      (fun r => r.password)) = [""]
    ∧ (userPartialUpdate true wUserDB 1 ⟨none, none, none, some "newpass"⟩).1
      = .ok (200, ⟨userUrl 1, "alice", "alice@example.com", []⟩)
    ∧ (userPartialUpdate true wUserDB 1 ⟨none, none, none, some "newpass"⟩).2
      = wUserDB := by
  refine ⟨rfl, rfl, rfl⟩

/-- C9 amended.  The rendered user representation exposes exactly url,
username, email and groups and never the password: rows differing only in
the stored credential render identically, list and retrieve cannot
observe a password change, and because `password` is not among the
serializer's fields, create and both updates ignore any password in the
request body instead of applying it as write-only input. -/
theorem user_password_never_rendered (u : UserRow) (pw : String) (a : Bool)
    (db : UserDB) (i j : Nat) (p : UserPayload) (s : Option String) :
    renderUser ⟨u.id, u.username, u.email, u.groups, pw⟩ = renderUser u
    ∧ renderUser u = ⟨userUrl u.id, u.username, u.email, u.groups⟩
    ∧ userList a (setUserPassword db i pw) = userList a db
    ∧ userRetrieve a (setUserPassword db i pw) j = userRetrieve a db j
    ∧ userCreate a db ⟨p.username, p.email, p.groups, s⟩
      = userCreate a db ⟨p.username, p.email, p.groups, none⟩
    ∧ userUpdate a db i ⟨p.username, p.email, p.groups, s⟩
      = userUpdate a db i ⟨p.username, p.email, p.groups, none⟩
    ∧ userPartialUpdate a db i ⟨p.username, p.email, p.groups, s⟩
      = userPartialUpdate a db i ⟨p.username, p.email, p.groups, none⟩ := by
  have hobs : ∀ (x : UserRow),
      renderUser (if (x.id == i) = true then
        ⟨x.id, x.username, x.email, x.groups, pw⟩ else x) = renderUser x := by
    intro x
    by_cases hx : (x.id == i) = true <;> simp [hx, renderUser]
  refine ⟨rfl, rfl, ?_, ?_, rfl, rfl, rfl⟩
  · unfold userList setUserPassword
    cases a
    · rfl
    · simp only [if_true]
      rw [List.map_map]
      refine congrArg (fun z =>
        (Except.ok (200, z) : Except ApiError (Nat × List UserOut))) ?_
      exact List.map_congr_left (fun x _ => hobs x)
  · unfold userRetrieve setUserPassword findUser
    cases a
    · rfl
    · simp only [if_true]
      rw [find?_map_pres _ _ (fun x => ?_)]
      · rcases hx : db.rows.find? (fun r => r.id == j) with _ | x
        · rw [hx]
          rfl
        · rw [hx]
          exact congrArg (fun t =>
            (Except.ok (200, t) : Except ApiError (Nat × UserOut))) (hobs x)
      · by_cases hx : (x.id == i) = true <;> simp [hx]

/-! ## C8: username uniqueness is preserved -/

/-- No two rows of the user table share a username. -/
def UniqueUsernames (db : UserDB) : Prop :=
  (db.rows.map (fun r => r.username)).Nodup

/-- Structural well-formedness the persistence layer maintains: primary
keys are distinct and below the next auto-increment key. -/
def UserDBWF (db : UserDB) : Prop :=
  (db.rows.map (fun r => r.id)).Nodup ∧ ∀ r ∈ db.rows, r.id < db.nextId

/-- Point update of the row with key `i` keeps usernames pairwise
distinct, provided keys are distinct and the new username is held by no
row other than row `i`. -/
theorem nodup_username_update (i : Nat) (u : String) (f : UserRow → UserRow)
    (hf1 : ∀ s, s.id = i → (f s).username = u)
    (hf2 : ∀ s, ¬ s.id = i → (f s).username = s.username) :
    ∀ (rows : List UserRow),
      (rows.map (fun r => r.id)).Nodup →
      (rows.map (fun r => r.username)).Nodup →
      (∀ s ∈ rows, s.username = u → s.id = i) →
      ((rows.map f).map (fun r => r.username)).Nodup := by
  intro rows
  induction rows with
  | nil => intro _ _ _; simp
  | cons r rows ih =>
    intro hid hun htk
    simp only [List.map_cons, List.nodup_cons] at hid hun ⊢
    obtain ⟨hid1, hid2⟩ := hid
    obtain ⟨hun1, hun2⟩ := hun
    refine ⟨?_, ih hid2 hun2 (fun s hs => htk s (List.mem_cons_of_mem r hs))⟩
    intro hmem
    rw [List.map_map] at hmem
    obtain ⟨s, hs, hseq⟩ := List.mem_map.mp hmem
    simp only [Function.comp] at hseq
    by_cases hri : r.id = i
    · by_cases hsi : s.id = i
      · have : r.id ∈ rows.map (fun r => r.id) :=
          List.mem_map.mpr ⟨s, hs, by rw [hsi, hri]⟩
        exact hid1 this
      · have hsu : s.username = u := by
          rw [← hf2 s hsi, hseq, hf1 r hri]
        exact hsi (htk s (List.mem_cons_of_mem r hs) hsu)
    · by_cases hsi : s.id = i
      · have hru : r.username = u := by
          rw [← hf2 r hri, ← hseq, hf1 s hsi]
        exact hri (htk r (List.mem_cons_self r rows) hru)
      · have hsr : s.username = r.username := by
          rw [← hf2 s hsi, hseq, hf2 r hri]
        exact hun1 (List.mem_map.mpr ⟨s, hs, hsr⟩)

/-- Creation preserves well-formedness and username uniqueness. -/
theorem userCreate_preserves (a : Bool) (db : UserDB) (p : UserPayload)
    (hwf : UserDBWF db) (hun : UniqueUsernames db) :
    UserDBWF (userCreate a db p).2 ∧ UniqueUsernames (userCreate a db p).2 := by
  cases a
  · exact ⟨hwf, hun⟩
  · rcases hv : validateUserPayload true db none p with _ | e
    case some => simp only [userCreate, if_true, hv]; exact ⟨hwf, hun⟩
    case none =>
    obtain ⟨u, hu, htk⟩ : ∃ u, p.username = some u
        ∧ usernameTakenExcept db none u = false := by
      unfold validateUserPayload at hv
      split at hv
      · cases hv
      · rename_i hcond
        rcases hpu : p.username with _ | u
        · rw [hpu] at hcond
          simp at hcond
        · rw [hpu] at hv
          simp only at hv
          split at hv
          · cases hv
          · rename_i hnt
            exact ⟨u, rfl, by simpa using hnt⟩
    simp only [userCreate, if_true, hv]
    obtain ⟨hid, hbnd⟩ := hwf
    refine ⟨⟨?_, ?_⟩, ?_⟩
    · simp only [List.map_append, List.map_cons, List.map_nil]
      rw [List.nodup_append]
      refine ⟨hid, List.nodup_singleton _, ?_⟩
      rw [List.disjoint_singleton]
      intro hmem
      obtain ⟨r, hr, hre⟩ := List.mem_map.mp hmem
      exact absurd hre (Nat.ne_of_lt (hbnd r hr))
    · intro r hr
      rcases List.mem_append.mp hr with h | h
      · exact Nat.lt_trans (hbnd r h) (Nat.lt_succ_self _)
      · simp only [List.mem_singleton] at h
        rw [h]
        exact Nat.lt_succ_self _
    · unfold UniqueUsernames
      simp only [List.map_append, List.map_cons, List.map_nil]
      rw [List.nodup_append]
      refine ⟨hun, List.nodup_singleton _, ?_⟩
      rw [List.disjoint_singleton]
      rw [hu]
      simp only [Option.getD_some]
      intro hmem
      obtain ⟨r, hr, hre⟩ := List.mem_map.mp hmem
      have hany : db.rows.any
          (fun r => r.username == u && none != some r.id) = true :=
        List.any_eq_true.mpr ⟨r, hr, by simp [hre]⟩
      rw [show db.rows.any (fun r => r.username == u && none != some r.id)
          = usernameTakenExcept db none u from rfl, htk] at hany
      cases hany

/-- Updating (full or partial) preserves well-formedness and username
uniqueness. -/
theorem userUpdateWith_preserves (req a : Bool) (db : UserDB) (i : Nat)
    (p : UserPayload) (hwf : UserDBWF db) (hun : UniqueUsernames db) :
    UserDBWF (userUpdateWith req a db i p).2
    ∧ UniqueUsernames (userUpdateWith req a db i p).2 := by
  cases a
  · exact ⟨hwf, hun⟩
  · rcases hf : findUser db i with _ | r0
    case none => simp only [userUpdateWith, if_true, hf]; exact ⟨hwf, hun⟩
    case some =>
    rcases hv : validateUserPayload req db (some r0.id) p with _ | e
    case some => simp only [userUpdateWith, if_true, hf, hv]; exact ⟨hwf, hun⟩
    case none =>
    have hr0 : r0.id = i := by
      have h0 := List.find?_some
        (show db.rows.find? (fun s => s.id == i) = some r0 from hf)
      simpa using h0
    simp only [userUpdateWith, if_true, hf, hv]
    obtain ⟨hid, hbnd⟩ := hwf
    have hfid : ∀ s : UserRow,
        ((if s.id == i then applyUserPayload s p else s)).id = s.id := by
      intro s
      by_cases h : (s.id == i) = true <;> simp [h, applyUserPayload]
    have hmapid : (db.rows.map
          (fun s => if s.id == i then applyUserPayload s p else s)).map
            (fun r => r.id)
        = db.rows.map (fun r => r.id) := by
      rw [List.map_map]
      exact List.map_congr_left (fun s _ => hfid s)
    refine ⟨⟨?_, ?_⟩, ?_⟩
    · rw [hmapid]
      exact hid
    · intro s hs
      obtain ⟨t, ht, hts⟩ := List.mem_map.mp hs
      have hst : s.id = t.id := by
        rw [← hts]
        exact hfid t
      rw [hst]
      exact hbnd t ht
    · unfold UniqueUsernames
      rcases hpu : p.username with _ | u
      · have hname : ∀ s ∈ db.rows,
            ((fun r => r.username) ∘
              (fun s => if s.id == i then applyUserPayload s p else s)) s
              = (fun r => r.username) s := by
          intro s _
          by_cases h : (s.id == i) = true <;>
            simp [h, applyUserPayload, hpu, Function.comp]
        simp only [List.map_map]
        rw [List.map_congr_left hname]
        exact hun
      · have htk : ∀ s ∈ db.rows, s.username = u → s.id = i := by
          unfold validateUserPayload at hv
          split at hv
          · cases hv
          · rw [hpu] at hv
            simp only at hv
            split at hv
            · cases hv
            · rename_i hnt
              intro s hs hsu
              by_contra hne
              apply hnt
              unfold usernameTakenExcept
              refine List.any_eq_true.mpr ⟨s, hs, ?_⟩
              have hne2 : ¬ r0.id = s.id := by
                rw [hr0]
                exact fun h => hne h.symm
              simp [hsu, hne2]
        refine nodup_username_update i u _ ?_ ?_ db.rows hid hun htk
        · intro s h
          simp [h, applyUserPayload, hpu]
        · intro s h
          simp [h]

/-- Deletion preserves well-formedness and username uniqueness. -/
theorem userDelete_preserves (a : Bool) (db : UserDB) (i : Nat)
    (hwf : UserDBWF db) (hun : UniqueUsernames db) :
    UserDBWF (userDelete a db i).2 ∧ UniqueUsernames (userDelete a db i).2 := by
  cases a
  · exact ⟨hwf, hun⟩
  · rcases hf : findUser db i with _ | r0
    case none => simp only [userDelete, if_true, hf]; exact ⟨hwf, hun⟩
    case some =>
    simp only [userDelete, if_true, hf]
    have hsub : List.Sublist (db.rows.filter (fun r => r.id != i)) db.rows :=
      List.filter_sublist _
    obtain ⟨hid, hbnd⟩ := hwf
    refine ⟨⟨?_, ?_⟩, ?_⟩
    · exact List.Nodup.sublist (hsub.map (fun r => r.id)) hid
    · intro r hr
      exact hbnd r (List.mem_filter.mp hr).1
    · exact List.Nodup.sublist (hsub.map (fun r => r.username)) hun

/-- C8.  Starting from any well-formed state with pairwise-distinct
usernames, every User operation preserves that invariant, and creating a
user under an already-taken username fails with the duplicate-username
ValidationError and leaves the table (hence the user count) unchanged. -/
theorem user_username_uniqueness (a : Bool) (db : UserDB) (p : UserPayload)
    (i : Nat) (u : String) :
    (UserDBWF db → UniqueUsernames db →
      (UserDBWF (userCreate a db p).2
          ∧ UniqueUsernames (userCreate a db p).2)
        ∧ (UserDBWF (userUpdate a db i p).2
          ∧ UniqueUsernames (userUpdate a db i p).2)
        ∧ (UserDBWF (userPartialUpdate a db i p).2
          ∧ UniqueUsernames (userPartialUpdate a db i p).2)
        ∧ (UserDBWF (userDelete a db i).2
          ∧ UniqueUsernames (userDelete a db i).2))
    ∧ (usernameTakenExcept db none u = true →
        userCreate true db ⟨some u, p.email, p.groups, p.password⟩
          = (.error (.validationError "username"), db)) := by
  constructor
  · intro hwf hun
    exact ⟨userCreate_preserves a db p hwf hun,
      userUpdateWith_preserves true a db i p hwf hun,
      userUpdateWith_preserves false a db i p hwf hun,
      userDelete_preserves a db i hwf hun⟩
  · intro htk
    by_cases hu : u = ""
    · simp [userCreate, validateUserPayload, hu]
    · simp [userCreate, validateUserPayload, hu, htk]

/-- C8 witness: on the concrete one-user table, creating "alice" again
fails with the duplicate error and changes nothing, and a create request
preserves the invariant. -/
theorem user_username_uniqueness_witness :
    (UserDBWF (userCreate true wUserDB ⟨some "alice", none, none, none⟩).2
      ∧ UniqueUsernames
          (userCreate true wUserDB ⟨some "alice", none, none, none⟩).2)
    ∧ userCreate true wUserDB ⟨some "alice", none, none, none⟩
      = (.error (.validationError "username"), wUserDB) :=
  have h := user_username_uniqueness true wUserDB
    ⟨some "alice", none, none, none⟩ 1 "alice"
  ⟨(h.1 ⟨by decide, by decide⟩ (by unfold UniqueUsernames; decide)).1,
    (h.2 (by decide))⟩

end LittleLemon
